import Mathlib

/-!
Verification of the Tolman IV core (eos_project/scripts/viejos/tolmanIV_modular.py,
with the construction guard also present in eos_project/scripts/tolman_IV.py and the
batch driver eos_project/scripts/viejos/main_tolman_iv.py).

Python floats are modelled as real numbers; `raise ValueError` is modelled as
`Except.error`; `None` results as `Option.none`.  All field equations are translated
directly from `TolmanIVCore`.
-/

namespace TolmanIV

open Real

noncomputable section

/-- `TolmanIVCore.pressure`: `8πp = (1/A²)·(1 − A²/R² − 3r²/R²)/(1 + 2r²/A²)`,
returned divided by `8π`. -/
def pressure (A R r : ℝ) : ℝ :=
  ((1 / A ^ 2) * (1 - A ^ 2 / R ^ 2 - 3 * r ^ 2 / R ^ 2) / (1 + 2 * r ^ 2 / A ^ 2)) / (8 * π)

/-- `TolmanIVCore.density`: `8πρ = term1 + term2` with
`term1 = (1/A²)·(1 + 3A²/R² + 3r²/R²)/(1 + 2r²/A²)` and
`term2 = (2/A²)·(1 − r²/R²)/(1 + 2r²/A²)²`, returned divided by `8π`. -/
def density (A R r : ℝ) : ℝ :=
  ((1 / A ^ 2) * (1 + 3 * A ^ 2 / R ^ 2 + 3 * r ^ 2 / R ^ 2) / (1 + 2 * r ^ 2 / A ^ 2)
    + (2 / A ^ 2) * (1 - r ^ 2 / R ^ 2) / (1 + 2 * r ^ 2 / A ^ 2) ^ 2) / (8 * π)

/-- `TolmanIVCore.central_values`: returns the pair `(rho_c, p_c)` with
`8π·rho_c = 3/A² + 3/R²` and `8π·p_c = 1/A² − 1/R²`. -/
def central_values (A R : ℝ) : ℝ × ℝ :=
  ((3 / A ^ 2 + 3 / R ^ 2) / (8 * π), (1 / A ^ 2 - 1 / R ^ 2) / (8 * π))

open Classical in
/-- `TolmanIVCore.boundary_radius`: returns `0` when `A²/R² ≥ 1`, otherwise
`(R/√3)·√(1 − A²/R²)`. -/
def boundary_radius (A R : ℝ) : ℝ :=
  if 1 ≤ A ^ 2 / R ^ 2 then 0
  else R / Real.sqrt 3 * Real.sqrt (1 - A ^ 2 / R ^ 2)

/-- `TolmanIVCore.equation_of_state`: `ρ = ρc − 5(pc − p) + 8(pc − p)²/(ρc + pc)`
with `(ρc, pc)` from `central_values` (the code's warning print is ignored: the
returned value is computed unconditionally). -/
def equation_of_state (A R p : ℝ) : ℝ :=
  (central_values A R).1 - 5 * ((central_values A R).2 - p)
    + 8 * ((central_values A R).2 - p) ^ 2 / ((central_values A R).1 + (central_values A R).2)

/-- One row of the generated profile (`r, rho, p, p_over_rho, cs2`). -/
structure RadialPoint where
  r : ℝ
  rho : ℝ
  p : ℝ
  p_over_rho : ℝ
  cs2 : ℝ

instance : Inhabited RadialPoint := ⟨⟨0, 0, 0, 0, 0⟩⟩

/-- `np.linspace a b n`: `n` evenly spaced samples from `a` to `b` inclusive. -/
def linspace (a b : ℝ) (n : ℕ) : List ℝ :=
  if n = 1 then [a]
  else (List.range n).map fun i : ℕ => a + (b - a) * (i : ℝ) / ((n : ℝ) - 1)

open Classical in
/-- The sample loop of `TolmanIVData.generate_eos_data`: walks the enumerated radii,
keeps a sample iff `p ≥ 0 ∧ rho > 0`, computing `cs2` by finite differences against the
previous retained point (`data[-1]`); the accumulator holds retained points in reverse. -/
def eos_loop (A R : ℝ) : List (ℕ × ℝ) → List RadialPoint → List RadialPoint
  | [], acc => acc
  | (i, r) :: rest, acc =>
    if 0 ≤ pressure A R r ∧ 0 < density A R r then
      eos_loop A R rest
        ({ r := r
           rho := density A R r
           p := pressure A R r
           p_over_rho := if 0 < density A R r then pressure A R r / density A R r else 0
           cs2 :=
             if 0 < i ∧ acc ≠ [] then
               if 1e-10 < |density A R r - acc.headI.rho| then
                 (pressure A R r - acc.headI.p) / (density A R r - acc.headI.rho)
               else 0
             else 0 } :: acc)
    else eos_loop A R rest acc

open Classical in
/-- The retention predicate of the sample loop, as a Boolean: `p ≥ 0 and rho > 0`. -/
def keep (A R r : ℝ) : Bool :=
  decide (0 ≤ pressure A R r ∧ 0 < density A R r)

open Classical in
/-- `TolmanIVData.generate_eos_data`: empty when `rb ≤ 0`, otherwise the retained
samples over `np.linspace(0, rb·0.999, n)` in their original (ascending `r`) order. -/
def generate_eos_data (A R : ℝ) (n : ℕ) : List RadialPoint :=
  if boundary_radius A R ≤ 0 then []
  else (eos_loop A R (linspace 0 (boundary_radius A R * 0.999) n).enum []).reverse

/-- The shape parameters held by a successfully constructed `TolmanIVCore`. -/
structure ShapeParameters where
  A : ℝ
  R : ℝ

open Classical in
/-- `TolmanIVCore.__init__`: raises `ValueError` when `R ≤ A`, otherwise stores `A, R`. -/
def core_init (A R : ℝ) : Except String ShapeParameters :=
  if R ≤ A then Except.error "R debe ser > A para solucion fisica"
  else Except.ok ⟨A, R⟩

/-- Entry `R > A` of `TolmanIVAnalysis.check_validity_conditions`. -/
def check_R_gt_A (A R : ℝ) : Prop := R > A

/-- Entry `pc > 0` of `TolmanIVAnalysis.check_validity_conditions`: the code records
the condition `R < √3·A` under this key. -/
def check_pc_pos (A R : ℝ) : Prop := R < Real.sqrt 3 * A

/-- The `valid` field of `TolmanIVAnalysis.analyze_solution`: both validity entries. -/
def analyze_valid (A R : ℝ) : Prop := check_R_gt_A A R ∧ check_pc_pos A R

open Classical in
/-- `process_single_case` from `main_tolman_iv.py`: construct the core (a raised
`ValueError` yields no result), stop with no result if the validity report is not
`valid`, generate the profile, and stop with no result if it is empty. -/
def process_single_case (A R : ℝ) (n : ℕ) : Option (List RadialPoint) :=
  match core_init A R with
  | Except.error _ => none
  | Except.ok c =>
    if analyze_valid c.A c.R then
      if (generate_eos_data c.A c.R n).length = 0 then none
      else some (generate_eos_data c.A c.R n)
    else none

open Classical in
/-- The per-sample relative percentage errors of
`TolmanIVAnalysis.verify_equation_of_state`: samples `np.linspace(0, rb·0.99, n)`,
keeps samples with `rho_direct > 0`, error `|rho_eos − rho_direct|/rho_direct·100`. -/
def eos_errors (A R : ℝ) (n : ℕ) : List ℝ :=
  ((linspace 0 (boundary_radius A R * 0.99) n).filter fun r => decide (0 < density A R r)).map
    fun r => |equation_of_state A R (pressure A R r) - density A R r| / density A R r * 100

open Classical in
/-- The `mean_error` field of `TolmanIVAnalysis.verify_equation_of_state`: `None` when
`rb ≤ 0` or when no error sample was collected, otherwise `np.mean` of the errors. -/
def verify_mean_error (A R : ℝ) (n : ℕ) : Option ℝ :=
  if boundary_radius A R ≤ 0 then none
  else if eos_errors A R n = [] then none
  else some ((eos_errors A R n).sum / (eos_errors A R n).length)

/-! ### Basic algebraic facts about the field equations -/

lemma eight_pi_pos : (0 : ℝ) < 8 * π := by positivity

lemma denom_pos (A r : ℝ) (hA : A ≠ 0) : (0 : ℝ) < A ^ 2 + 2 * r ^ 2 := by positivity

lemma one_add_denom_pos (A r : ℝ) : (0 : ℝ) < 1 + 2 * r ^ 2 / A ^ 2 := by positivity

/-- The pressure as a single rational expression. -/
lemma pressure_eq (A R r : ℝ) (hA : A ≠ 0) (hR : R ≠ 0) :
    pressure A R r = (R ^ 2 - A ^ 2 - 3 * r ^ 2) / (R ^ 2 * (A ^ 2 + 2 * r ^ 2) * (8 * π)) := by
  have h1 : (1 : ℝ) + 2 * r ^ 2 / A ^ 2 ≠ 0 := (one_add_denom_pos A r).ne'
  have h2 : (A : ℝ) ^ 2 + 2 * r ^ 2 ≠ 0 := (denom_pos A r hA).ne'
  unfold pressure
  field_simp
  ring

/-- The density as a single rational expression. -/
lemma density_eq (A R r : ℝ) (hA : A ≠ 0) (hR : R ≠ 0) :
    density A R r = (6 * r ^ 4 + (2 * R ^ 2 + 7 * A ^ 2) * r ^ 2 + 3 * A ^ 2 * (A ^ 2 + R ^ 2))
      / (R ^ 2 * (A ^ 2 + 2 * r ^ 2) ^ 2 * (8 * π)) := by
  have h1 : (1 : ℝ) + 2 * r ^ 2 / A ^ 2 ≠ 0 := (one_add_denom_pos A r).ne'
  have h2 : (A : ℝ) ^ 2 + 2 * r ^ 2 ≠ 0 := (denom_pos A r hA).ne'
  unfold density
  field_simp
  ring

/-- The density is strictly positive for any radius when `0 < A` and `0 < R`. -/
lemma density_pos (A R r : ℝ) (hA : 0 < A) (hR : 0 < R) : 0 < density A R r := by
  rw [density_eq A R r hA.ne' hR.ne']
  have hnum : 0 < 6 * r ^ 4 + (2 * R ^ 2 + 7 * A ^ 2) * r ^ 2 + 3 * A ^ 2 * (A ^ 2 + R ^ 2) := by
    positivity
  have hden : 0 < R ^ 2 * (A ^ 2 + 2 * r ^ 2) ^ 2 * (8 * π) := by positivity
  exact div_pos hnum hden

/-- The pressure is antitone in the radius (for any sign of the pressure). -/
lemma pressure_anti (A R : ℝ) (r₁ r₂ : ℝ) (hA : 0 < A) (hR : 0 < R)
    (h₁ : 0 ≤ r₁) (h₁₂ : r₁ ≤ r₂) : pressure A R r₂ ≤ pressure A R r₁ := by
  have hA' := hA.ne'
  have hR' := hR.ne'
  have hd₁ := denom_pos A r₁ hA'
  have hd₂ := denom_pos A r₂ hA'
  have hsq : r₁ ^ 2 ≤ r₂ ^ 2 := by nlinarith
  have key : pressure A R r₁ - pressure A R r₂
      = (r₂ ^ 2 - r₁ ^ 2) * (A ^ 2 + 2 * R ^ 2)
        / (R ^ 2 * (A ^ 2 + 2 * r₁ ^ 2) * (A ^ 2 + 2 * r₂ ^ 2) * (8 * π)) := by
    rw [pressure_eq A R r₁ hA' hR', pressure_eq A R r₂ hA' hR']
    field_simp
    ring
  have hpos : 0 ≤ (r₂ ^ 2 - r₁ ^ 2) * (A ^ 2 + 2 * R ^ 2)
      / (R ^ 2 * (A ^ 2 + 2 * r₁ ^ 2) * (A ^ 2 + 2 * r₂ ^ 2) * (8 * π)) := by
    apply div_nonneg
    · nlinarith
    · positivity
  linarith [key ▸ hpos]

/-- The density is antitone in the radius. -/
lemma density_anti (A R : ℝ) (r₁ r₂ : ℝ) (hA : 0 < A) (hR : 0 < R)
    (h₁ : 0 ≤ r₁) (h₁₂ : r₁ ≤ r₂) : density A R r₂ ≤ density A R r₁ := by
  have hA' := hA.ne'
  have hR' := hR.ne'
  have hd₁ := denom_pos A r₁ hA'
  have hd₂ := denom_pos A r₂ hA'
  have hsq : r₁ ^ 2 ≤ r₂ ^ 2 := by nlinarith
  have key : density A R r₁ - density A R r₂
      = (r₂ ^ 2 - r₁ ^ 2) * (A ^ 2 + 2 * R ^ 2)
          * (5 * A ^ 4 + 6 * A ^ 2 * (r₁ ^ 2 + r₂ ^ 2) + 4 * r₁ ^ 2 * r₂ ^ 2)
        / (R ^ 2 * (A ^ 2 + 2 * r₁ ^ 2) ^ 2 * (A ^ 2 + 2 * r₂ ^ 2) ^ 2 * (8 * π)) := by
    rw [density_eq A R r₁ hA' hR', density_eq A R r₂ hA' hR']
    field_simp
    ring
  have hpos : 0 ≤ (r₂ ^ 2 - r₁ ^ 2) * (A ^ 2 + 2 * R ^ 2)
      * (5 * A ^ 4 + 6 * A ^ 2 * (r₁ ^ 2 + r₂ ^ 2) + 4 * r₁ ^ 2 * r₂ ^ 2)
      / (R ^ 2 * (A ^ 2 + 2 * r₁ ^ 2) ^ 2 * (A ^ 2 + 2 * r₂ ^ 2) ^ 2 * (8 * π)) := by
    apply div_nonneg
    · have : 0 ≤ r₂ ^ 2 - r₁ ^ 2 := by linarith
      positivity
    · positivity
  linarith [key ▸ hpos]

/-- The density strictly dominates the pressure everywhere. -/
lemma pressure_lt_density (A R r : ℝ) (hA : 0 < A) (hR : 0 < R) :
    pressure A R r < density A R r := by
  have hA' := hA.ne'
  have hR' := hR.ne'
  have key : density A R r - pressure A R r
      = (12 * r ^ 4 + 12 * A ^ 2 * r ^ 2 + 4 * A ^ 4 + 2 * A ^ 2 * R ^ 2)
        / (R ^ 2 * (A ^ 2 + 2 * r ^ 2) ^ 2 * (8 * π)) := by
    rw [density_eq A R r hA' hR', pressure_eq A R r hA' hR']
    have hd := denom_pos A r hA'
    field_simp
    ring
  have hpos : 0 < (12 * r ^ 4 + 12 * A ^ 2 * r ^ 2 + 4 * A ^ 4 + 2 * A ^ 2 * R ^ 2)
      / (R ^ 2 * (A ^ 2 + 2 * r ^ 2) ^ 2 * (8 * π)) := by positivity
  linarith [key ▸ hpos]

/-! ### Boundary radius -/

lemma one_lt_sqrt_three : (1 : ℝ) < Real.sqrt 3 := by
  rw [show (1 : ℝ) = Real.sqrt 1 from (Real.sqrt_one).symm]
  exact Real.sqrt_lt_sqrt (by norm_num) (by norm_num)

lemma sqrt_three_lt_two : Real.sqrt 3 < 2 := by
  rw [Real.sqrt_lt' (by norm_num : (0 : ℝ) < 2)]
  norm_num

/-- When `A² < R²` the closed-form branch is taken. -/
lemma boundary_radius_eq (A R : ℝ) (h : A ^ 2 < R ^ 2) :
    boundary_radius A R = R / Real.sqrt 3 * Real.sqrt (1 - A ^ 2 / R ^ 2) := by
  have hR2 : (0 : ℝ) < R ^ 2 := lt_of_le_of_lt (sq_nonneg A) h
  have : A ^ 2 / R ^ 2 < 1 := (div_lt_one hR2).mpr h
  unfold boundary_radius
  rw [if_neg (by linarith)]

/-- When `A² ≥ R²` the function returns `0` (including the degenerate `R = 0` case). -/
lemma boundary_radius_eq_zero (A R : ℝ) (h : R ^ 2 ≤ A ^ 2) : boundary_radius A R = 0 := by
  unfold boundary_radius
  by_cases hR : R = 0
  · subst hR
    rw [if_neg (by norm_num)]
    simp
  · have hR2 : (0 : ℝ) < R ^ 2 := by positivity
    rw [if_pos ((one_le_div hR2).mpr h)]

lemma boundary_radius_pos (A R : ℝ) (hA : 0 < A) (hAR : A < R) : 0 < boundary_radius A R := by
  have hR : 0 < R := hA.trans hAR
  have hsq : A ^ 2 < R ^ 2 := by nlinarith
  have hR2 : (0 : ℝ) < R ^ 2 := by positivity
  rw [boundary_radius_eq A R hsq]
  have h1 : 0 < 1 - A ^ 2 / R ^ 2 := by
    have : A ^ 2 / R ^ 2 < 1 := (div_lt_one hR2).mpr hsq
    linarith
  have h2 : 0 < Real.sqrt 3 := by positivity
  exact mul_pos (div_pos hR h2) (Real.sqrt_pos.mpr h1)

lemma boundary_radius_lt (A R : ℝ) (hA : 0 < A) (hAR : A < R) : boundary_radius A R < R := by
  have hR : 0 < R := hA.trans hAR
  have hsq : A ^ 2 < R ^ 2 := by nlinarith
  have hR2 : (0 : ℝ) < R ^ 2 := by positivity
  rw [boundary_radius_eq A R hsq]
  have hs3 : (0 : ℝ) < Real.sqrt 3 := by positivity
  have hle : Real.sqrt (1 - A ^ 2 / R ^ 2) ≤ 1 := by
    have : A ^ 2 / R ^ 2 ≥ 0 := by positivity
    exact Real.sqrt_le_one.mpr (by linarith)
  have h1 : R / Real.sqrt 3 * Real.sqrt (1 - A ^ 2 / R ^ 2) ≤ R / Real.sqrt 3 := by
    have hRd : 0 ≤ R / Real.sqrt 3 := by positivity
    exact mul_le_of_le_one_right hRd hle
  have h2 : R / Real.sqrt 3 < R := div_lt_self hR one_lt_sqrt_three
  linarith

/-- The square of the boundary radius: `rb² = (R² − A²)/3`. -/
lemma boundary_radius_sq (A R : ℝ) (hA : 0 < A) (hAR : A < R) :
    (boundary_radius A R) ^ 2 = (R ^ 2 - A ^ 2) / 3 := by
  have hR : 0 < R := hA.trans hAR
  have hsq : A ^ 2 < R ^ 2 := by nlinarith
  have hR2 : (0 : ℝ) < R ^ 2 := by positivity
  rw [boundary_radius_eq A R hsq]
  have h1 : (0 : ℝ) ≤ 1 - A ^ 2 / R ^ 2 := by
    have : A ^ 2 / R ^ 2 < 1 := (div_lt_one hR2).mpr hsq
    linarith
  rw [mul_pow, div_pow, Real.sq_sqrt h1, Real.sq_sqrt (by norm_num : (0 : ℝ) ≤ 3)]
  field_simp
  ring

/-- The pressure vanishes exactly at the boundary radius. -/
lemma pressure_at_boundary (A R : ℝ) (hA : 0 < A) (hAR : A < R) :
    pressure A R (boundary_radius A R) = 0 := by
  have hR : 0 < R := hA.trans hAR
  rw [pressure_eq A R _ hA.ne' hR.ne', boundary_radius_sq A R hA hAR]
  rw [show R ^ 2 - A ^ 2 - 3 * ((R ^ 2 - A ^ 2) / 3) = 0 by ring, zero_div]

/-! ### Sampling grid -/

lemma length_linspace (a b : ℝ) (n : ℕ) : (linspace a b n).length = n := by
  unfold linspace
  split
  · simp [*]
  · simp

lemma mem_linspace_nonneg (a b r : ℝ) (n : ℕ) (ha : 0 ≤ a) (hab : a ≤ b)
    (h : r ∈ linspace a b n) : 0 ≤ r := by
  unfold linspace at h
  split at h
  · simp only [List.mem_singleton] at h
    exact h ▸ ha
  · simp only [List.mem_map, List.mem_range] at h
    obtain ⟨i, hi, rfl⟩ := h
    rename_i hn
    have h2 : 2 ≤ n := by omega
    have hd : (0 : ℝ) ≤ (n : ℝ) - 1 := by
      have : (2 : ℝ) ≤ (n : ℝ) := by exact_mod_cast h2
      linarith
    have : 0 ≤ (b - a) * (i : ℝ) / ((n : ℝ) - 1) := by
      apply div_nonneg _ hd
      exact mul_nonneg (by linarith) (Nat.cast_nonneg i)
    linarith

lemma pairwise_lt_linspace (a b : ℝ) (n : ℕ) (hab : a < b) :
    (linspace a b n).Pairwise (· < ·) := by
  unfold linspace
  split
  · simp
  · rw [List.pairwise_map]
    refine (List.pairwise_lt_range n).imp_of_mem ?_
    intro i j hi hj hij
    rw [List.mem_range] at hi hj
    have h2 : 2 ≤ n := by omega
    have hd : (0 : ℝ) < (n : ℝ) - 1 := by
      have : (2 : ℝ) ≤ (n : ℝ) := by exact_mod_cast h2
      linarith
    have hij' : (i : ℝ) < (j : ℝ) := by exact_mod_cast hij
    have hnum : (b - a) * (i : ℝ) < (b - a) * (j : ℝ) :=
      mul_lt_mul_of_pos_left hij' (by linarith)
    have : (b - a) * (i : ℝ) / ((n : ℝ) - 1) < (b - a) * (j : ℝ) / ((n : ℝ) - 1) :=
      (div_lt_div_iff_of_pos_right hd).mpr hnum
    linarith

/-! ### Structure of the generated profile -/

/-- The radii retained by the sample loop are exactly the grid radii passing the
`p ≥ 0 ∧ rho > 0` filter, in reverse order, on top of the accumulator. -/
lemma eos_loop_map_r (A R : ℝ) (l : List (ℕ × ℝ)) (acc : List RadialPoint) :
    (eos_loop A R l acc).map (fun pt => pt.r)
      = ((l.map Prod.snd).filter fun r => keep A R r).reverse
          ++ acc.map (fun pt => pt.r) := by
  induction l generalizing acc with
  | nil => simp [eos_loop]
  | cons hd tl ih =>
    obtain ⟨i, r⟩ := hd
    by_cases h : 0 ≤ pressure A R r ∧ 0 < density A R r
    · rw [eos_loop, if_pos h, ih]
      have hk : keep A R r = true := by
        simp only [keep, decide_eq_true_eq]
        exact h
      simp [List.filter_cons, hk]
    · rw [eos_loop, if_neg h, ih]
      have hk : keep A R r = false := by
        simp only [keep, decide_eq_false_iff_not]
        exact h
      simp [List.filter_cons, hk]

/-- Every point produced by the sample loop (beyond the accumulator) carries the direct
pressure/density evaluations at its radius, passes the retention filter, and has
`p_over_rho = p/rho`; its radius comes from the input grid. -/
lemma mem_eos_loop (A R : ℝ) (l : List (ℕ × ℝ)) (acc : List RadialPoint) (pt : RadialPoint)
    (h : pt ∈ eos_loop A R l acc) :
    pt ∈ acc ∨ (pt.p = pressure A R pt.r ∧ pt.rho = density A R pt.r ∧ 0 ≤ pt.p ∧ 0 < pt.rho
      ∧ pt.p_over_rho = pt.p / pt.rho ∧ pt.r ∈ l.map Prod.snd) := by
  induction l generalizing acc with
  | nil => exact Or.inl (by simpa [eos_loop] using h)
  | cons hd tl ih =>
    obtain ⟨i, r⟩ := hd
    by_cases hc : 0 ≤ pressure A R r ∧ 0 < density A R r
    · rw [eos_loop, if_pos hc] at h
      rcases ih _ h with hmem | hprop
      · rcases List.mem_cons.mp hmem with rfl | hacc
        · right
          refine ⟨rfl, rfl, hc.1, hc.2, ?_, by simp⟩
          simp [hc.2]
        · exact Or.inl hacc
      · right
        obtain ⟨h1, h2, h3, h4, h5, h6⟩ := hprop
        exact ⟨h1, h2, h3, h4, h5, by simp [h6]⟩
    · rw [eos_loop, if_neg hc] at h
      rcases ih _ h with hmem | hprop
      · exact Or.inl hmem
      · right
        obtain ⟨h1, h2, h3, h4, h5, h6⟩ := hprop
        exact ⟨h1, h2, h3, h4, h5, by simp [h6]⟩

lemma generate_eos_data_of_nonpos (A R : ℝ) (n : ℕ) (h : boundary_radius A R ≤ 0) :
    generate_eos_data A R n = [] := by
  unfold generate_eos_data
  rw [if_pos h]

/-- With a positive boundary radius, the radii of the generated profile are exactly the
grid radii passing the retention filter, in grid order. -/
lemma generate_eos_data_map_r (A R : ℝ) (n : ℕ) (h : 0 < boundary_radius A R) :
    (generate_eos_data A R n).map (fun pt => pt.r)
      = (linspace 0 (boundary_radius A R * 0.999) n).filter fun r => keep A R r := by
  unfold generate_eos_data
  rw [if_neg (not_le.mpr h), List.map_reverse, eos_loop_map_r]
  simp [List.enum_map_snd]

/-- Every generated point carries the direct field-equation values at its radius. -/
lemma mem_generate_eos_data (A R : ℝ) (n : ℕ) (pt : RadialPoint)
    (h : pt ∈ generate_eos_data A R n) :
    pt.p = pressure A R pt.r ∧ pt.rho = density A R pt.r ∧ 0 ≤ pt.p ∧ 0 < pt.rho
      ∧ pt.p_over_rho = pt.p / pt.rho
      ∧ pt.r ∈ linspace 0 (boundary_radius A R * 0.999) n := by
  unfold generate_eos_data at h
  split at h
  · simp at h
  · rw [List.mem_reverse] at h
    rcases mem_eos_loop A R _ _ pt h with hacc | hprop
    · simp at hacc
    · simpa [List.enum_map_snd] using hprop

/-- The radii of the generated profile are strictly increasing. -/
lemma generate_pairwise_r (A R : ℝ) (n : ℕ) :
    ((generate_eos_data A R n).map fun pt => pt.r).Pairwise (· < ·) := by
  by_cases h : boundary_radius A R ≤ 0
  · simp [generate_eos_data_of_nonpos A R n h]
  · push_neg at h
    rw [generate_eos_data_map_r A R n h]
    have hb : (0 : ℝ) < boundary_radius A R * 0.999 := by
      have : (0 : ℝ) < 0.999 := by norm_num
      exact mul_pos h this
    exact (pairwise_lt_linspace 0 _ n hb).sublist (List.filter_sublist _)

lemma generate_length_le (A R : ℝ) (n : ℕ) : (generate_eos_data A R n).length ≤ n := by
  by_cases h : boundary_radius A R ≤ 0
  · simp [generate_eos_data_of_nonpos A R n h]
  · push_neg at h
    have := congrArg List.length (generate_eos_data_map_r A R n h)
    rw [List.length_map] at this
    rw [this]
    calc ((linspace 0 (boundary_radius A R * 0.999) n).filter fun r => keep A R r).length
        ≤ (linspace 0 (boundary_radius A R * 0.999) n).length := List.length_filter_le _ _
      _ = n := length_linspace _ _ n

/-! ### The equation-of-state identity -/

/-- The central-value sum `rho_c + p_c` as a single rational expression. -/
lemma central_sum_eq (A R : ℝ) (hA : A ≠ 0) (hR : R ≠ 0) :
    (central_values A R).1 + (central_values A R).2
      = (4 * R ^ 2 + 2 * A ^ 2) / (A ^ 2 * R ^ 2 * (8 * π)) := by
  unfold central_values
  have hπ : (π : ℝ) ≠ 0 := Real.pi_ne_zero
  field_simp
  ring

/-- The pressure drop `p_c − p(r)` as a single rational expression. -/
lemma central_pressure_drop (A R r : ℝ) (hA : A ≠ 0) (hR : R ≠ 0) :
    (central_values A R).2 - pressure A R r
      = r ^ 2 * (2 * R ^ 2 + A ^ 2) / (A ^ 2 * R ^ 2 * (A ^ 2 + 2 * r ^ 2) * (8 * π)) := by
  unfold central_values
  rw [pressure_eq A R r hA hR]
  have hπ : (π : ℝ) ≠ 0 := Real.pi_ne_zero
  have hd : (A : ℝ) ^ 2 + 2 * r ^ 2 ≠ 0 := (denom_pos A r hA).ne'
  field_simp
  ring

/-- The pressure-based equation of state reproduces the direct density exactly. -/
lemma eos_identity (A R r : ℝ) (hA : A ≠ 0) (hR : R ≠ 0) :
    equation_of_state A R (pressure A R r) = density A R r := by
  have hπ : (π : ℝ) ≠ 0 := Real.pi_ne_zero
  have hd : (A : ℝ) ^ 2 + 2 * r ^ 2 ≠ 0 := (denom_pos A r hA).ne'
  have h42 : (4 : ℝ) * R ^ 2 + 2 * A ^ 2 ≠ 0 := by positivity
  unfold equation_of_state
  rw [central_pressure_drop A R r hA hR, central_sum_eq A R hA hR,
    density_eq A R r hA hR]
  show (3 / A ^ 2 + 3 / R ^ 2) / (8 * π) - 5 * _ + 8 * _ ^ 2 / _ = _
  field_simp
  ring

/-! ### Claims -/

/-- Claim C1: for every ShapeParameters with 0 < A < R, central_values() returns
rho_c = (3/A² + 3/R²)/(8π) and p_c = (1/A² − 1/R²)/(8π), and these agree exactly with
density(0) and pressure(0) (the real-arithmetic model of the float agreement to at
least 10 significant digits: the r→0 limits coincide with direct evaluation at 0). -/
theorem C1_central_values (A R : ℝ) (hA : 0 < A) (hAR : A < R) :
    central_values A R
        = ((3 / A ^ 2 + 3 / R ^ 2) / (8 * π), (1 / A ^ 2 - 1 / R ^ 2) / (8 * π))
      ∧ pressure A R 0 = (central_values A R).2
      ∧ density A R 0 = (central_values A R).1 := by
  have hR : 0 < R := hA.trans hAR
  have hA' : (A : ℝ) ≠ 0 := hA.ne'
  have hR' : (R : ℝ) ≠ 0 := hR.ne'
  have hπ : (π : ℝ) ≠ 0 := Real.pi_ne_zero
  refine ⟨rfl, ?_, ?_⟩
  · unfold pressure central_values
    field_simp
  · unfold density central_values
    field_simp
    ring

/-- Witness for C1 at A = 1, R = 2. -/
theorem C1_witness :
    (0 : ℝ) < 1 ∧ (1 : ℝ) < 2
      ∧ (central_values 1 2
            = ((3 / (1 : ℝ) ^ 2 + 3 / (2 : ℝ) ^ 2) / (8 * π),
               (1 / (1 : ℝ) ^ 2 - 1 / (2 : ℝ) ^ 2) / (8 * π))
          ∧ pressure 1 2 0 = (central_values 1 2).2
          ∧ density 1 2 0 = (central_values 1 2).1) :=
  ⟨by norm_num, by norm_num, C1_central_values 1 2 (by norm_num) (by norm_num)⟩

/-- Claim C2: for 0 < A < R and 0 ≤ r ≤ 0.99·rb, the density recovered through the
equation-of-state relation from p = pressure(r) equals density(r) exactly; hence the
mean relative error reported by verify_equation_of_state (20 samples, as called by the
driver) is exactly 0, in particular below 1e-6 percent for A = 5, R = 8. -/
theorem C2_eos_consistency (A R r : ℝ) (hA : 0 < A) (hAR : A < R)
    (_hr0 : 0 ≤ r) (_hr1 : r ≤ 0.99 * boundary_radius A R) :
    equation_of_state A R (pressure A R r) = density A R r
      ∧ verify_mean_error A R 20 = some 0 := by
  have hR : 0 < R := hA.trans hAR
  have hrb := boundary_radius_pos A R hA hAR
  refine ⟨eos_identity A R r hA.ne' hR.ne', ?_⟩
  have hfil : ((linspace 0 (boundary_radius A R * 0.99) 20).filter
      fun s => decide (0 < density A R s)) = linspace 0 (boundary_radius A R * 0.99) 20 := by
    apply List.filter_eq_self.mpr
    intro a _
    simp only [decide_eq_true_eq]
    exact density_pos A R a hA hR
  have hzero : ∀ x ∈ eos_errors A R 20, x = 0 := by
    intro x hx
    unfold eos_errors at hx
    simp only [List.mem_map] at hx
    obtain ⟨s, _, rfl⟩ := hx
    rw [eos_identity A R s hA.ne' hR.ne']
    simp
  have hlen : (eos_errors A R 20).length = 20 := by
    unfold eos_errors
    rw [hfil, List.length_map, length_linspace]
  have hne : eos_errors A R 20 ≠ [] := by
    intro hnil
    rw [hnil] at hlen
    simp at hlen
  unfold verify_mean_error
  rw [if_neg (not_le.mpr hrb), if_neg hne, List.sum_eq_zero hzero]
  simp

/-- Witness for C2 at A = 5, R = 8, r = 0. -/
theorem C2_witness :
    (0 : ℝ) < 5 ∧ (5 : ℝ) < 8 ∧ (0 : ℝ) ≤ 0 ∧ (0 : ℝ) ≤ 0.99 * boundary_radius 5 8
      ∧ (equation_of_state 5 8 (pressure 5 8 0) = density 5 8 0
          ∧ verify_mean_error 5 8 20 = some 0) := by
  have hrb : (0 : ℝ) < boundary_radius 5 8 :=
    boundary_radius_pos 5 8 (by norm_num) (by norm_num)
  exact ⟨by norm_num, by norm_num, le_refl 0,
    by positivity,
    C2_eos_consistency 5 8 0 (by norm_num) (by norm_num) (le_refl 0) (by positivity)⟩

/-- Claim C3: boundary_radius() returns (R/√3)·√(1 − A²/R²) when A² < R² and 0
otherwise (a total function, never raising); and whenever A < R < √3·A the returned
radius lies strictly in (0, R) and the pressure vanishes there exactly. -/
theorem C3_boundary_radius (A R : ℝ) :
    (A ^ 2 < R ^ 2 → boundary_radius A R = R / Real.sqrt 3 * Real.sqrt (1 - A ^ 2 / R ^ 2))
      ∧ (R ^ 2 ≤ A ^ 2 → boundary_radius A R = 0)
      ∧ (A < R → R < Real.sqrt 3 * A →
          0 < boundary_radius A R ∧ boundary_radius A R < R
            ∧ pressure A R (boundary_radius A R) = 0) := by
  refine ⟨boundary_radius_eq A R, boundary_radius_eq_zero A R, ?_⟩
  intro h1 h2
  have hA : 0 < A := by
    by_contra hA
    push_neg at hA
    have h3 : Real.sqrt 3 * A ≤ A := by nlinarith [one_lt_sqrt_three]
    linarith
  exact ⟨boundary_radius_pos A R hA h1, boundary_radius_lt A R hA h1,
    pressure_at_boundary A R hA h1⟩

/-- Witness for C3 at A = 1, R = 1.5 (which satisfies 1 < 1.5 < √3). -/
theorem C3_witness :
    0 < boundary_radius 1 1.5 ∧ boundary_radius 1 1.5 < 1.5
      ∧ pressure 1 1.5 (boundary_radius 1 1.5) = 0 := by
  have hs : (1.5 : ℝ) < Real.sqrt 3 * 1 := by
    rw [mul_one]
    exact (Real.lt_sqrt (by norm_num)).mpr (by norm_num)
  exact (C3_boundary_radius 1 1.5).2.2 (by norm_num) hs

/-- Claim C4 is false on the code: at A = 1, R = 2 (a valid core, 0 < 1 < 2) the
central pressure (1/A² − 1/R²)/(8π) = 3/(32π) is positive although R ≥ √3·A, so
"p_c > 0 if and only if R < √3·A" fails. -/
theorem C4_counterexample :
    ¬ (0 < (central_values 1 2).2 ↔ (2 : ℝ) < Real.sqrt 3 * 1) := by
  intro h
  have hpc : 0 < (central_values 1 2).2 := by
    show 0 < (1 / (1 : ℝ) ^ 2 - 1 / (2 : ℝ) ^ 2) / (8 * π)
    rw [show (1 / (1 : ℝ) ^ 2 - 1 / (2 : ℝ) ^ 2) = 3 / 4 by norm_num]
    positivity
  have h2 := h.mp hpc
  rw [mul_one] at h2
  linarith [sqrt_three_lt_two]

/-- Claim C4 (amended): for every ShapeParameters with 0 < A < R the central pressure
returned by central_values() is positive (1/A² > 1/R² already follows from A < R); the
validity checker's condition R < √3·A, recorded under the key "pc > 0", does not
characterize the sign of p_c. -/
theorem C4_amended (A R : ℝ) (hA : 0 < A) (hAR : A < R) : 0 < (central_values A R).2 := by
  have hR : 0 < R := hA.trans hAR
  show 0 < (1 / A ^ 2 - 1 / R ^ 2) / (8 * π)
  have hsq : A ^ 2 < R ^ 2 := by nlinarith
  have h1 : 1 / R ^ 2 < 1 / A ^ 2 := one_div_lt_one_div_of_lt (by positivity) hsq
  exact div_pos (sub_pos.mpr h1) eight_pi_pos

/-- Witness for the amended C4 at A = 1, R = 2. -/
theorem C4_witness : (0 : ℝ) < 1 ∧ (1 : ℝ) < 2 ∧ 0 < (central_values 1 2).2 :=
  ⟨by norm_num, by norm_num, C4_amended 1 2 (by norm_num) (by norm_num)⟩

/-- Claim C5: generate_eos_data(n) returns an empty Profile when boundary_radius() ≤ 0;
otherwise it evaluates pressure and density on the n evenly spaced radii of
np.linspace(0, rb·(1 − 0.001), n), discards every sample with p < 0 or rho ≤ 0 (the
retained radii are exactly the grid radii passing the filter), and returns the retained
points in ascending r; the output length is at most n. -/
theorem C5_generate_eos_data (A R : ℝ) (n : ℕ) :
    (boundary_radius A R ≤ 0 → generate_eos_data A R n = [])
      ∧ (generate_eos_data A R n).length ≤ n
      ∧ ((generate_eos_data A R n).map fun pt => pt.r).Pairwise (· < ·)
      ∧ (0 < boundary_radius A R →
          (generate_eos_data A R n).map (fun pt => pt.r)
            = (linspace 0 (boundary_radius A R * 0.999) n).filter fun r => keep A R r)
      ∧ ∀ pt ∈ generate_eos_data A R n,
          pt.p = pressure A R pt.r ∧ pt.rho = density A R pt.r ∧ 0 ≤ pt.p ∧ 0 < pt.rho :=
  ⟨generate_eos_data_of_nonpos A R n, generate_length_le A R n, generate_pairwise_r A R n,
    generate_eos_data_map_r A R n, fun pt h =>
      ⟨(mem_generate_eos_data A R n pt h).1, (mem_generate_eos_data A R n pt h).2.1,
        (mem_generate_eos_data A R n pt h).2.2.1, (mem_generate_eos_data A R n pt h).2.2.2.1⟩⟩

/-- Witness for C5 at A = 1, R = 1.5, n = 3, discharging the positive-boundary premise. -/
theorem C5_witness :
    (generate_eos_data 1 1.5 3).length ≤ 3
      ∧ (generate_eos_data 1 1.5 3).map (fun pt => pt.r)
          = (linspace 0 (boundary_radius 1 1.5 * 0.999) 3).filter fun r => keep 1 1.5 r :=
  ⟨(C5_generate_eos_data 1 1.5 3).2.1,
    (C5_generate_eos_data 1 1.5 3).2.2.2.1
      (boundary_radius_pos 1 1.5 (by norm_num) (by norm_num))⟩

/-- Claim C6: for every profile generated with 0 < A < R, both the pressure and the
density sequences are non-increasing along the profile (each later point has pressure
and density no larger than any earlier point). -/
theorem C6_monotone (A R : ℝ) (n : ℕ) (hA : 0 < A) (hAR : A < R) :
    (generate_eos_data A R n).Pairwise fun x y => y.p ≤ x.p ∧ y.rho ≤ x.rho := by
  have hR : 0 < R := hA.trans hAR
  have hrb := boundary_radius_pos A R hA hAR
  have hb : (0 : ℝ) ≤ boundary_radius A R * 0.999 := by
    have h999 : (0 : ℝ) < 0.999 := by norm_num
    exact (mul_pos hrb h999).le
  have hp := generate_pairwise_r A R n
  rw [List.pairwise_map] at hp
  refine hp.imp_of_mem ?_
  intro x y hx hy hlt
  obtain ⟨hxp, hxr, _, _, _, hxmem⟩ := mem_generate_eos_data A R n x hx
  obtain ⟨hyp, hyr, _, _, _, _⟩ := mem_generate_eos_data A R n y hy
  have hx0 : 0 ≤ x.r := mem_linspace_nonneg 0 _ x.r n (le_refl 0) hb hxmem
  constructor
  · rw [hxp, hyp]
    exact pressure_anti A R x.r y.r hA hR hx0 hlt.le
  · rw [hxr, hyr]
    exact density_anti A R x.r y.r hA hR hx0 hlt.le

/-- Witness for C6 at A = 1, R = 1.5, n = 5. -/
theorem C6_witness :
    (generate_eos_data 1 1.5 5).Pairwise fun x y => y.p ≤ x.p ∧ y.rho ≤ x.rho :=
  C6_monotone 1 1.5 5 (by norm_num) (by norm_num)

/-- Claim C7: every point of a profile generated with 0 < A < R satisfies the energy
condition rho ≥ p and the causality condition 0 ≤ p_over_rho ≤ 1. -/
theorem C7_physical_conditions (A R : ℝ) (n : ℕ) (hA : 0 < A) (hAR : A < R) :
    ∀ pt ∈ generate_eos_data A R n,
      pt.p ≤ pt.rho ∧ 0 ≤ pt.p_over_rho ∧ pt.p_over_rho ≤ 1 := by
  intro pt hpt
  have hR : 0 < R := hA.trans hAR
  obtain ⟨hp, hrho, hp0, hrho0, hpr, _⟩ := mem_generate_eos_data A R n pt hpt
  have hple : pt.p ≤ pt.rho := by
    rw [hp, hrho]
    exact (pressure_lt_density A R pt.r hA hR).le
  refine ⟨hple, ?_, ?_⟩
  · rw [hpr]
    exact div_nonneg hp0 hrho0.le
  · rw [hpr]
    exact (div_le_one hrho0).mpr hple

/-- Witness for C7 at A = 1, R = 1.5, n = 5. -/
theorem C7_witness :
    (0 : ℝ) < 1 ∧ (1 : ℝ) < 1.5
      ∧ ∀ pt ∈ generate_eos_data 1 1.5 5,
          pt.p ≤ pt.rho ∧ 0 ≤ pt.p_over_rho ∧ pt.p_over_rho ≤ 1 :=
  ⟨by norm_num, by norm_num, C7_physical_conditions 1 1.5 5 (by norm_num) (by norm_num)⟩

/-- Claim C8: constructing the core with R ≤ A (here A = 1, R = 0.5) raises the
construction error, the driver pipeline produces no profile or report for that case,
and the pure field functions perform no such check: they still evaluate at A = 1,
R = 0.5 to their closed-form values −3/(8π) and 15/(8π) at r = 0. -/
theorem C8_construction_guard :
    core_init 1 (1 / 2) = Except.error "R debe ser > A para solucion fisica"
      ∧ (∀ n, process_single_case 1 (1 / 2) n = none)
      ∧ pressure 1 (1 / 2) 0 = -3 / (8 * π)
      ∧ density 1 (1 / 2) 0 = 15 / (8 * π) := by
  have h1 : core_init 1 (1 / 2) = Except.error "R debe ser > A para solucion fisica" := by
    unfold core_init
    rw [if_pos (by norm_num : (1 : ℝ) / 2 ≤ 1)]
  refine ⟨h1, fun n => ?_, ?_, ?_⟩
  · unfold process_single_case
    rw [h1]
  · unfold pressure
    norm_num
  · unfold density
    norm_num

/-- Witness instance for C8 at n = 100. -/
theorem C8_witness : process_single_case 1 (1 / 2) 100 = none :=
  C8_construction_guard.2.1 100

/-- Claim C9: for A = 1, R = 2 the analysis validity flag is false (R ≥ √3·A), and the
driver pipeline produces no data points for this configuration. -/
theorem C9_invalid_case :
    ¬ analyze_valid 1 2 ∧ ∀ n, process_single_case 1 2 n = none := by
  have hval : ¬ analyze_valid 1 2 := by
    intro h
    have h2 := h.2
    unfold check_pc_pos at h2
    rw [mul_one] at h2
    linarith [sqrt_three_lt_two]
  refine ⟨hval, fun n => ?_⟩
  unfold process_single_case
  have h1 : core_init 1 2 = Except.ok ⟨1, 2⟩ := by
    unfold core_init
    rw [if_neg (by norm_num : ¬((2 : ℝ) ≤ 1))]
  rw [h1]
  exact if_neg hval

/-- Witness instance for C9 at n = 100. -/
theorem C9_witness : process_single_case 1 2 100 = none :=
  C9_invalid_case.2 100

/-- Claim C10: for every constructed core with 0 < A < R, construction succeeds,
A²/R² < 1 holds, so boundary_radius() takes its closed-form branch and is strictly
positive; consequently generate_eos_data never takes its empty-profile (rb ≤ 0) branch
for such instances. -/
theorem C10_no_degenerate_branch (A R : ℝ) (hA : 0 < A) (hAR : A < R) :
    core_init A R = Except.ok ⟨A, R⟩
      ∧ A ^ 2 / R ^ 2 < 1
      ∧ boundary_radius A R = R / Real.sqrt 3 * Real.sqrt (1 - A ^ 2 / R ^ 2)
      ∧ 0 < boundary_radius A R
      ∧ ∀ n, generate_eos_data A R n
          = (eos_loop A R (linspace 0 (boundary_radius A R * 0.999) n).enum []).reverse := by
  have hR : 0 < R := hA.trans hAR
  have hsq : A ^ 2 < R ^ 2 := by nlinarith
  refine ⟨?_, ?_, boundary_radius_eq A R hsq, boundary_radius_pos A R hA hAR, fun n => ?_⟩
  · unfold core_init
    rw [if_neg (not_le.mpr hAR)]
  · exact (div_lt_one (by positivity)).mpr hsq
  · unfold generate_eos_data
    rw [if_neg (not_le.mpr (boundary_radius_pos A R hA hAR))]

/-- Witness for C10 at A = 1, R = 2. -/
theorem C10_witness : core_init 1 2 = Except.ok ⟨1, 2⟩ ∧ 0 < boundary_radius 1 2 :=
  ⟨(C10_no_degenerate_branch 1 2 (by norm_num) (by norm_num)).1,
    (C10_no_degenerate_branch 1 2 (by norm_num) (by norm_num)).2.2.2.1⟩

end

end TolmanIV
